import Mathlib

/-!
Shallow embedding of `graphql_server/__init__.py` (graphql-server-core).

The module orchestrates an HTTP request pipeline over an abstract query
engine.  The engine's primitives (`parse`, `validate`, `get_operation_ast`,
`execute`) and the JSON decoder (`json.loads`) are external collaborators;
they are passed as function parameters.  A Python exception raised by a
collaborator is modelled as the `Except.error` / `Option.none` branch of
its return type.  Hard transport errors (`HttpQueryError`) are the error
channel of the pipeline functions themselves.
-/

namespace GraphQLServer

/-- A header value: Python code uses both a plain string (`'GET, POST'`)
and a list of strings (`['POST']`). -/
inductive HeaderValue where
  | str (s : String)
  | list (strs : List String)
deriving DecidableEq, Repr

/-- Models `HttpQueryError(status, message, headers=None)` from
`graphql_server/error.py`; absent headers are the empty list. -/
structure HttpQueryError where
  status : Nat
  message : String
  headers : List (String × HeaderValue)
deriving DecidableEq, Repr

/-- The value found in a `variables` slot of a request item: absent (or
JSON null), a string, or an already-decoded mapping.  `VMap` is the
abstract type of decoded JSON mappings. -/
inductive Vars (VMap : Type) where
  | vnone
  | vstr (s : String)
  | vmap (m : VMap)
deriving DecidableEq, Repr

/-- One raw request item (a Python dict with optional keys `query`,
`variables`, `operationName`); `d.get(k)` returning `None` is `none` /
`Vars.vnone`. -/
structure RawItem (VMap : Type) where
  query : Option String
  vars : Vars VMap
  operationName : Option String
deriving DecidableEq, Repr

/-- The empty Python dict `{}` used as an absent fallback. -/
def emptyRawItem {VMap : Type} : RawItem VMap :=
  { query := none, vars := Vars.vnone, operationName := none }

/-- `GraphQLParams = namedtuple('GraphQLParams', 'query,variables,operation_name')`. -/
structure GraphQLParams (VMap : Type) where
  query : Option String
  vars : Vars VMap
  operation_name : Option String
deriving DecidableEq, Repr

/-- `graphql.execution.ExecutionResult`: `data`, `errors` (a possibly
empty list models Python `None` or `[]`), `invalid`. -/
structure ExecutionResult (Err Dat : Type) where
  data : Option Dat
  errors : List Err
  invalid : Bool
deriving DecidableEq, Repr

/-- The response dict built by `format_execution_result`: each field is
`some _` exactly when the corresponding key is present.  The inner
`Option Dat` of the `data` field is the nullability of the data value. -/
structure ResponseBody (FErr Dat : Type) where
  errors : Option (List FErr)
  data : Option (Option Dat)
deriving DecidableEq, Repr

/-- `GraphQLResponse = namedtuple('GraphQLResponse', 'result,status_code')`. -/
structure GraphQLResponse (FErr Dat : Type) where
  result : Option (ResponseBody FErr Dat)
  status_code : Nat
deriving DecidableEq, Repr

/-- The part of an operation AST node inspected by the pipeline:
`operation_ast.operation` (the operation kind, e.g. `'query'`). -/
structure OperationAst where
  operation : String
deriving DecidableEq, Repr

/-- The duck-typed request body handed to `run_http_query`: a list
(batch), a dict (single item), or anything else (`other` carries the
string rendering used by the error message). -/
inductive RequestData (VMap : Type) where
  | dict (d : RawItem VMap)
  | list (ds : List (RawItem VMap))
  | other (text : String)
deriving DecidableEq, Repr

/-- The exception-class filter of `get_response`: `catch = HttpQueryError`
(suppress, when the caller passed `catch=True`) or `catch = SkipException`
(propagate, since `SkipException` is never raised). -/
inductive CatchPolicy where
  | suppress
  | propagate
deriving DecidableEq, Repr

/-- The value handed to `encode` by `encode_execution_results`: a bare
body for single requests, a list of bodies for a batch. -/
inductive EncodedPayload (FErr Dat : Type) where
  | single (body : Option (ResponseBody FErr Dat))
  | batch (bodies : List (Option (ResponseBody FErr Dat)))
deriving DecidableEq, Repr

/-- Python truthiness of an optional string: `None` and `''` are falsy. -/
def truthy_str : Option String → Bool
  | none => false
  | some s => !s.isEmpty

/-- Python `a or b` on optional strings. -/
def or_truthy (a b : Option String) : Option String :=
  if truthy_str a then a else b

/-- Python truthiness of a `variables` value; `map_truthy` decides
truthiness of a decoded mapping (`{}` is falsy). -/
def truthy_vars {VMap : Type} (map_truthy : VMap → Bool) : Vars VMap → Bool
  | Vars.vnone => false
  | Vars.vstr s => !s.isEmpty
  | Vars.vmap m => map_truthy m

/-- Python `a or b` on `variables` values. -/
def or_truthy_vars {VMap : Type} (map_truthy : VMap → Bool) (a b : Vars VMap) : Vars VMap :=
  if truthy_vars map_truthy a then a else b

variable {Schema AST Err Dat FErr VMap : Type}

/-- `load_json_variables(variables)`: a truthy string is JSON-decoded
(`json.loads` is the collaborator `decode_json`; any decode exception
becomes `HttpQueryError(400, 'Variables are invalid JSON.')`); everything
else is returned unchanged. -/
def load_json_variables (decode_json : String → Option VMap) (vars : Vars VMap) :
    Except HttpQueryError (Vars VMap) :=
  match vars with
  | Vars.vstr s =>
    if s.isEmpty then Except.ok (Vars.vstr s)
    else
      match decode_json s with
      | some m => Except.ok (Vars.vmap m)
      | none => Except.error { status := 400, message := "Variables are invalid JSON.", headers := [] }
  | v => Except.ok v

/-- `get_graphql_params(data, query_data)`: per-field first-truthy-wins
fallback, then `load_json_variables` on the resolved variables. -/
def get_graphql_params (map_truthy : VMap → Bool) (decode_json : String → Option VMap)
    (data query_data : RawItem VMap) : Except HttpQueryError (GraphQLParams VMap) :=
  let query := or_truthy data.query query_data.query
  let vars := or_truthy_vars map_truthy data.vars query_data.vars
  let operation_name := or_truthy data.operationName query_data.operationName
  match load_json_variables decode_json vars with
  | Except.ok v => Except.ok { query := query, vars := v, operation_name := operation_name }
  | Except.error e => Except.error e

/-- The final `try: return await execute(...) except Exception as e: ...`
block of `execute_graphql_request`: any exception from the engine's
`execute` is converted into `ExecutionResult(errors=[e], invalid=True)`. -/
def execute_and_catch
    (execute : Schema → AST → Option String → Vars VMap → Except Err (ExecutionResult Err Dat))
    (schema : Schema) (ast : AST) (params : GraphQLParams VMap) :
    Except HttpQueryError (ExecutionResult Err Dat) :=
  match execute schema ast params.operation_name params.vars with
  | Except.ok r => Except.ok r
  | Except.error e => Except.ok { data := none, errors := [e], invalid := true }

/-- `execute_graphql_request(schema, params, allow_only_query, **kwargs)`.
`parse` covers `Source(...)` plus `parse(...)`; `validate` may itself
raise (its `Except.error` branch), and both raises inside the first `try`
block become `ExecutionResult(errors=[e], invalid=True)`.  The opaque
`**execute_options` are folded into the `execute` collaborator. -/
def execute_graphql_request
    (parse : String → Except Err AST)
    (validate : Schema → AST → Except Err (List Err))
    (get_operation_ast : AST → Option String → Option OperationAst)
    (execute : Schema → AST → Option String → Vars VMap → Except Err (ExecutionResult Err Dat))
    (schema : Schema) (params : GraphQLParams VMap) (allow_only_query : Bool) :
    Except HttpQueryError (ExecutionResult Err Dat) :=
  if !truthy_str params.query then
    Except.error { status := 400, message := "Must provide query string.", headers := [] }
  else
    match parse (params.query.getD "") with
    | Except.error e => Except.ok { data := none, errors := [e], invalid := true }
    | Except.ok ast =>
      match validate schema ast with
      | Except.error e => Except.ok { data := none, errors := [e], invalid := true }
      | Except.ok validation_errors =>
        if !validation_errors.isEmpty then
          Except.ok { data := none, errors := validation_errors, invalid := true }
        else
          if allow_only_query then
            match get_operation_ast ast params.operation_name with
            | some operation_ast =>
              if operation_ast.operation ≠ "query" then
                Except.error
                  { status := 405
                  , message := "Can only perform a " ++ operation_ast.operation ++ " operation from a POST request."
                  , headers := [("Allow", HeaderValue.list ["POST"])] }
              else execute_and_catch execute schema ast params
            | none => execute_and_catch execute schema ast params
          else execute_and_catch execute schema ast params

/-- `get_response(schema, params, catch, allow_only_query, **kwargs)`:
an `HttpQueryError` from the pipeline is suppressed into `none` when the
catch class is `HttpQueryError`, and propagated otherwise. -/
def get_response
    (parse : String → Except Err AST)
    (validate : Schema → AST → Except Err (List Err))
    (get_operation_ast : AST → Option String → Option OperationAst)
    (execute : Schema → AST → Option String → Vars VMap → Except Err (ExecutionResult Err Dat))
    (schema : Schema) (params : GraphQLParams VMap) (catch_policy : CatchPolicy)
    (allow_only_query : Bool) :
    Except HttpQueryError (Option (ExecutionResult Err Dat)) :=
  match execute_graphql_request parse validate get_operation_ast execute schema params allow_only_query with
  | Except.ok r => Except.ok (some r)
  | Except.error e =>
    match catch_policy with
    | CatchPolicy.suppress => Except.ok none
    | CatchPolicy.propagate => Except.error e

/-- `format_execution_result(execution_result, format_error)`. -/
def format_execution_result (execution_result : Option (ExecutionResult Err Dat))
    (format_error : Err → FErr) : GraphQLResponse FErr Dat :=
  match execution_result with
  | some r =>
    let response : ResponseBody FErr Dat :=
      if r.errors.isEmpty then { errors := none, data := none }
      else { errors := some (r.errors.map format_error), data := none }
    if r.invalid then { result := some response, status_code := 400 }
    else { result := some { response with data := some r.data }, status_code := 200 }
  | none => { result := none, status_code := 200 }

/-- `encode_execution_results(execution_results, format_error, is_batch,
encode)`.  `zip(*responses)` raises on an empty input, which is the
`none` branch. -/
def encode_execution_results {α : Type}
    (execution_results : List (Option (ExecutionResult Err Dat)))
    (format_error : Err → FErr) (is_batch : Bool)
    (encode : EncodedPayload FErr Dat → α) : Option (α × Nat) :=
  match execution_results.map (fun er => format_execution_result er format_error) with
  | [] => none
  | r :: rs =>
    let status_code := rs.foldl (fun acc resp => Nat.max acc resp.status_code) r.status_code
    let bodies := r.result :: rs.map GraphQLResponse.result
    let result := if is_batch then EncodedPayload.batch bodies else EncodedPayload.single r.result
    some (encode result, status_code)

/-- Sequential effectful map over `Except`: models both the eager list
comprehension building `all_params` (whose `HttpQueryError` escapes
`run_http_query`) and the `asyncio.gather` join (which re-raises the
exception of a failed item). -/
def map_except {α β : Type} (f : α → Except HttpQueryError β) : List α → Except HttpQueryError (List β)
  | [] => Except.ok []
  | x :: xs =>
    match f x with
    | Except.error e => Except.error e
    | Except.ok y =>
      match map_except f xs with
      | Except.error e => Except.error e
      | Except.ok ys => Except.ok (y :: ys)

/-- The tail of `run_http_query` after shape validation: build
`all_params` from the entries against the common fallback `extra_data`,
then gather `get_response` over them. -/
def run_items
    (parse : String → Except Err AST)
    (validate : Schema → AST → Except Err (List Err))
    (get_operation_ast : AST → Option String → Option OperationAst)
    (execute : Schema → AST → Option String → Vars VMap → Except Err (ExecutionResult Err Dat))
    (map_truthy : VMap → Bool) (decode_json : String → Option VMap)
    (schema : Schema) (entries : List (RawItem VMap)) (extra_data : RawItem VMap)
    (catch_policy : CatchPolicy) (allow_only_query : Bool) :
    Except HttpQueryError (List (Option (ExecutionResult Err Dat)) × List (GraphQLParams VMap)) :=
  match map_except (fun entry => get_graphql_params map_truthy decode_json entry extra_data) entries with
  | Except.error e => Except.error e
  | Except.ok all_params =>
    match map_except
        (fun params => get_response parse validate get_operation_ast execute schema params catch_policy allow_only_query)
        all_params with
    | Except.error e => Except.error e
    | Except.ok responses => Except.ok (responses, all_params)

/-- `run_http_query(schema, request_method, data, query_data=None,
batch_enabled=False, catch=False, **execute_options)`. -/
def run_http_query
    (parse : String → Except Err AST)
    (validate : Schema → AST → Except Err (List Err))
    (get_operation_ast : AST → Option String → Option OperationAst)
    (execute : Schema → AST → Option String → Vars VMap → Except Err (ExecutionResult Err Dat))
    (map_truthy : VMap → Bool) (decode_json : String → Option VMap)
    (schema : Schema) (request_method : String) (data : RequestData VMap)
    (query_data : Option (RawItem VMap)) (batch_enabled : Bool) (catch_flag : Bool) :
    Except HttpQueryError (List (Option (ExecutionResult Err Dat)) × List (GraphQLParams VMap)) :=
  if !(request_method == "get" || request_method == "post") then
    Except.error
      { status := 405
      , message := "GraphQL only supports GET and POST requests."
      , headers := [("Allow", HeaderValue.str "GET, POST")] }
  else
    let catchPolicy := if catch_flag then CatchPolicy.suppress else CatchPolicy.propagate
    let allow_only_query := request_method == "get"
    match data with
    | RequestData.other text =>
      Except.error
        { status := 400
        , message := "GraphQL params should be a dict. Received " ++ text ++ "."
        , headers := [] }
    | RequestData.dict d =>
      run_items parse validate get_operation_ast execute map_truthy decode_json schema
        [d] (query_data.getD emptyRawItem) catchPolicy allow_only_query
    | RequestData.list ds =>
      if !batch_enabled then
        Except.error { status := 400, message := "Batch GraphQL requests are not enabled.", headers := [] }
      else if ds.isEmpty then
        Except.error { status := 400, message := "Received an empty list in the batch request.", headers := [] }
      else
        run_items parse validate get_operation_ast execute map_truthy decode_json schema
          ds emptyRawItem catchPolicy allow_only_query

/-! Concrete instantiations of the abstract collaborators, used to
evaluate the pipeline on closed inputs. -/

/-- Concrete decoded-mapping type: association lists from keys to numbers. -/
abbrev VMapW : Type := List (String × Nat)

/-- A toy `parse`: the text `bad` has a syntax error, everything else parses. -/
def parseW : String → Except String Unit :=
  fun s => if s == "bad" then Except.error "syntax error" else Except.ok ()

/-- A toy `validate` that accepts everything. -/
def validateW : Unit → Unit → Except String (List String) :=
  fun _ _ => Except.ok []

/-- A toy `get_operation_ast` that finds no operation. -/
def goaW : Unit → Option String → Option OperationAst :=
  fun _ _ => none

/-- A toy `get_operation_ast` that always selects a mutation operation. -/
def goaMutW : Unit → Option String → Option OperationAst :=
  fun _ _ => some { operation := "mutation" }

/-- A toy `execute` that always succeeds with data. -/
def executeW : Unit → Unit → Option String → Vars VMapW → Except String (ExecutionResult String String) :=
  fun _ _ _ _ => Except.ok { data := some "ok", errors := [], invalid := false }

/-- Truthiness of a concrete mapping: the empty dict is falsy. -/
def mapTruthyW : VMapW → Bool := fun m => !m.isEmpty

/-- A toy `json.loads` that understands exactly the text `{"a":1}`. -/
def decodeW : String → Option VMapW :=
  fun s => if s == "\x7b\"a\":1\x7d" then some [("a", 1)] else none

/-- A raw item carrying a query. -/
def itemOkW : RawItem VMapW := { query := some "q", vars := Vars.vnone, operationName := none }

/-- A raw item with no query at all. -/
def itemNoQueryW : RawItem VMapW := { query := none, vars := Vars.vnone, operationName := none }

/-- Transport-level fallback parameters carrying a default query. -/
def qdDefaultW : RawItem VMapW := { query := some "qd", vars := Vars.vnone, operationName := none }

/-- The parameters extracted from `itemOkW`. -/
def pOkW : GraphQLParams VMapW := { query := some "q", vars := Vars.vnone, operation_name := none }

/-- The parameters extracted from `itemNoQueryW` against the empty fallback. -/
def pNoneW : GraphQLParams VMapW := { query := none, vars := Vars.vnone, operation_name := none }

/-- Parameters whose query text fails to parse under `parseW`. -/
def pBadW : GraphQLParams VMapW := { query := some "bad", vars := Vars.vnone, operation_name := none }

/-- The outcome `executeW` always produces. -/
def resOkW : ExecutionResult String String := { data := some "ok", errors := [], invalid := false }

/-- A concrete error formatter. -/
def fmtW : String → String := fun e => e

/-- A concrete body encoder (keeps the payload as is). -/
def encW : EncodedPayload String String → EncodedPayload String String := fun p => p

/-- A concrete two-item outcome list: a success and a validation failure. -/
def resultsW : List (Option (ExecutionResult String String)) :=
  [ some { data := some "d", errors := [], invalid := false }
  , some { data := none, errors := ["bad"], invalid := true } ]

/-! General lemmas about the fold and mapping combinators. -/

/-- The seed is below a `Nat.max` fold. -/
theorem le_foldl_max (xs : List Nat) : ∀ x : Nat, x ≤ xs.foldl Nat.max x := by
  induction xs with
  | nil => intro x; exact Nat.le_refl x
  | cons y ys ih => intro x; exact Nat.le_trans (Nat.le_max_left x y) (ih (Nat.max x y))

/-- Every member is below a `Nat.max` fold. -/
theorem mem_le_foldl_max (xs : List Nat) : ∀ (x y : Nat), y ∈ xs → y ≤ xs.foldl Nat.max x := by
  induction xs with
  | nil => intro x y hy; cases hy
  | cons z zs ih =>
    intro x y hy
    rcases List.mem_cons.mp hy with h | h
    · subst h; exact Nat.le_trans (Nat.le_max_right x y) (le_foldl_max zs (Nat.max x y))
    · exact ih (Nat.max x z) y h

/-- A `Nat.max` fold is the seed or one of the members. -/
theorem foldl_max_mem (xs : List Nat) : ∀ x : Nat, xs.foldl Nat.max x = x ∨ xs.foldl Nat.max x ∈ xs := by
  induction xs with
  | nil => intro x; left; rfl
  | cons y ys ih =>
    intro x
    rcases ih (Nat.max x y) with h | h
    · by_cases hxy : x ≤ y
      · right
        have : Nat.max x y = y := Nat.max_eq_right hxy
        rw [List.foldl_cons, h, this]
        exact List.mem_cons_self y ys
      · left
        have : Nat.max x y = x := Nat.max_eq_left (Nat.le_of_lt (Nat.lt_of_not_le hxy))
        rw [List.foldl_cons, h, this]
    · right
      exact List.mem_cons_of_mem y h

/-- If `f` succeeds pointwise then `map_except f` is the plain map. -/
theorem map_except_ok_of_forall {α β : Type} (f : α → Except HttpQueryError β) (g : α → β)
    (xs : List α) (h : ∀ a ∈ xs, f a = Except.ok (g a)) :
    map_except f xs = Except.ok (xs.map g) := by
  induction xs with
  | nil => rfl
  | cons x xs ih =>
    have hx := h x (List.mem_cons_self x xs)
    have hxs := ih (fun a ha => h a (List.mem_cons_of_mem x ha))
    simp [map_except, hx, hxs]

/-- If `f` fails on some member then `map_except f` fails. -/
theorem map_except_error_of_mem {α β : Type} (f : α → Except HttpQueryError β) (xs : List α)
    (a : α) (ha : a ∈ xs) (e : HttpQueryError) (hf : f a = Except.error e) :
    ∃ e2, map_except f xs = Except.error e2 := by
  induction xs with
  | nil => cases ha
  | cons x xs ih =>
    rcases List.mem_cons.mp ha with h | h
    · subst h; exact ⟨e, by simp [map_except, hf]⟩
    · cases hfx : f x with
      | error e3 => exact ⟨e3, by simp [map_except, hfx]⟩
      | ok y =>
        rcases ih h with ⟨e2, he2⟩
        exact ⟨e2, by simp [map_except, hfx, he2]⟩

/-- A successful `map_except` preserves the length. -/
theorem map_except_ok_length {α β : Type} (f : α → Except HttpQueryError β)
    (xs : List α) (ys : List β) (h : map_except f xs = Except.ok ys) :
    ys.length = xs.length := by
  induction xs generalizing ys with
  | nil =>
    simp [map_except] at h
    subst h; rfl
  | cons x xs ih =>
    unfold map_except at h
    split at h
    · simp at h
    · split at h
      · simp at h
      · rename_i y hfx ys2 hm
        cases h
        simp [ih ys2 hm]

/-! Claim theorems. -/

/-- C6: for every parameter set whose resolved query field is empty or
absent, `execute_graphql_request` fails with a hard `HttpQueryError` of
status 400 and message `Must provide query string.`, uniformly in the
`parse` collaborator (so before any parse is attempted). -/
theorem c6_empty_query_fails_fast
    (parse : String → Except Err AST)
    (validate : Schema → AST → Except Err (List Err))
    (get_operation_ast : AST → Option String → Option OperationAst)
    (execute : Schema → AST → Option String → Vars VMap → Except Err (ExecutionResult Err Dat))
    (schema : Schema) (params : GraphQLParams VMap) (allow_only_query : Bool)
    (hq : truthy_str params.query = false) :
    execute_graphql_request parse validate get_operation_ast execute schema params allow_only_query
      = Except.error { status := 400, message := "Must provide query string.", headers := [] } := by
  simp [execute_graphql_request, hq]

/-- Witness for C6: the empty query string fails fast on a concrete pipeline. -/
theorem c6_witness :
    execute_graphql_request parseW validateW goaW executeW ()
        { query := some "", vars := Vars.vnone, operation_name := none } false
      = Except.error { status := 400, message := "Must provide query string.", headers := [] } :=
  c6_empty_query_fails_fast parseW validateW goaW executeW ()
    { query := some "", vars := Vars.vnone, operation_name := none } false (by decide)

/-- C8: `load_json_variables` JSON-decodes a truthy string value (failure
of the decoder raises `HttpQueryError(400, 'Variables are invalid
JSON.')`), and passes mappings and empty/absent values through unchanged. -/
theorem c8_load_json_variables_spec (decode_json : String → Option VMap) :
    (∀ (s : String) (m : VMap), s.isEmpty = false → decode_json s = some m →
      load_json_variables decode_json (Vars.vstr s) = Except.ok (Vars.vmap m)) ∧
    (∀ s : String, s.isEmpty = false → decode_json s = none →
      load_json_variables decode_json (Vars.vstr s)
        = Except.error { status := 400, message := "Variables are invalid JSON.", headers := [] }) ∧
    (∀ m : VMap, load_json_variables decode_json (Vars.vmap m) = Except.ok (Vars.vmap m)) ∧
    (load_json_variables decode_json (Vars.vnone : Vars VMap) = Except.ok Vars.vnone) ∧
    (load_json_variables decode_json (Vars.vstr "") = Except.ok (Vars.vstr "")) := by
  refine ⟨?_, ?_, ?_, rfl, rfl⟩
  · intro s m hs hd
    simp [load_json_variables, hs, hd]
  · intro s hs hd
    simp [load_json_variables, hs, hd]
  · intro m
    rfl

/-- Witness for C8: the JSON text `{"a":1}` decodes to the mapping `a ↦ 1`. -/
theorem c8_witness :
    load_json_variables decodeW (Vars.vstr "\x7b\"a\":1\x7d")
      = Except.ok (Vars.vmap [("a", 1)]) :=
  (c8_load_json_variables_spec decodeW).1 "\x7b\"a\":1\x7d" [("a", 1)] (by decide) (by decide)

/-- C2: `format_execution_result` maps a suppressed (`none`) outcome to no
body with status 200; an `invalid` outcome to a body holding only the
formatted errors (no `data` key) with status 400; a valid outcome to a
body holding `data`, plus `errors` when non-empty, with status 200. -/
theorem c2_format_execution_result_spec (format_error : Err → FErr) :
    (format_execution_result (none : Option (ExecutionResult Err Dat)) format_error
      = { result := none, status_code := 200 }) ∧
    (∀ r : ExecutionResult Err Dat, r.invalid = true →
      format_execution_result (some r) format_error
        = { result := some
              { errors := if r.errors.isEmpty then none else some (r.errors.map format_error)
              , data := none }
          , status_code := 400 }) ∧
    (∀ r : ExecutionResult Err Dat, r.invalid = false →
      format_execution_result (some r) format_error
        = { result := some
              { errors := if r.errors.isEmpty then none else some (r.errors.map format_error)
              , data := some r.data }
          , status_code := 200 }) := by
  refine ⟨rfl, ?_, ?_⟩ <;>
    intro r hr <;>
    by_cases he : r.errors.isEmpty <;>
    simp [format_execution_result, hr, he]

/-- Witness for C2: a concrete invalid outcome yields an errors-only body
with status 400. -/
theorem c2_witness :
    format_execution_result (some { data := (none : Option String), errors := ["boom"], invalid := true })
        (fun e : String => e)
      = { result := some { errors := some ["boom"], data := none }, status_code := 400 } := by
  have h := (c2_format_execution_result_spec (fun e : String => e)).2.1
    { data := (none : Option String), errors := ["boom"], invalid := true } rfl
  simpa using h

/-- C5 counterexample: a batch request with batching disabled is rejected
with status 400, but the message is `Batch GraphQL requests are not
enabled.`, not `Batch requests are not enabled.` as the claim states. -/
theorem c5_counterexample :
    run_http_query parseW validateW goaW executeW mapTruthyW decodeW () "post"
        (RequestData.list [itemOkW]) none false false
      = Except.error { status := 400, message := "Batch GraphQL requests are not enabled.", headers := [] }
    ∧ ("Batch GraphQL requests are not enabled." : String) ≠ "Batch requests are not enabled." := by
  exact ⟨rfl, by decide⟩

/-- C5 (amended): an array-shaped body with batching disabled fails with
`HttpQueryError(400, 'Batch GraphQL requests are not enabled.')`,
uniformly in every collaborator and in the items themselves, so no item
is extracted or executed. -/
theorem c5_batch_disabled_rejected
    (parse : String → Except Err AST)
    (validate : Schema → AST → Except Err (List Err))
    (get_operation_ast : AST → Option String → Option OperationAst)
    (execute : Schema → AST → Option String → Vars VMap → Except Err (ExecutionResult Err Dat))
    (map_truthy : VMap → Bool) (decode_json : String → Option VMap)
    (schema : Schema) (request_method : String) (ds : List (RawItem VMap))
    (query_data : Option (RawItem VMap)) (catch_flag : Bool)
    (hm : (request_method == "get" || request_method == "post") = true) :
    run_http_query parse validate get_operation_ast execute map_truthy decode_json schema
        request_method (RequestData.list ds) query_data false catch_flag
      = Except.error { status := 400, message := "Batch GraphQL requests are not enabled.", headers := [] } := by
  simp [run_http_query, hm]

/-- Witness for C5 (amended): concrete rejected batch. -/
theorem c5_witness :
    run_http_query parseW validateW goaW executeW mapTruthyW decodeW () "get"
        (RequestData.list [itemOkW, itemOkW]) (some qdDefaultW) false true
      = Except.error { status := 400, message := "Batch GraphQL requests are not enabled.", headers := [] } :=
  c5_batch_disabled_rejected parseW validateW goaW executeW mapTruthyW decodeW () "get"
    [itemOkW, itemOkW] (some qdDefaultW) true (by decide)

/-- C7: on a GET request (`allow_only_query` set), when the query parses
and validates and the selected operation's kind is not `query`, the
pipeline fails with `HttpQueryError` 405, a message naming the offending
kind, and an `Allow: [POST]` header — uniformly in the `execute`
collaborator, so `execute` is never invoked. -/
theorem c7_get_mutation_rejected
    (parse : String → Except Err AST)
    (validate : Schema → AST → Except Err (List Err))
    (get_operation_ast : AST → Option String → Option OperationAst)
    (schema : Schema) (params : GraphQLParams VMap) (ast : AST) (operation_ast : OperationAst)
    (hq : truthy_str params.query = true)
    (hp : parse (params.query.getD "") = Except.ok ast)
    (hv : validate schema ast = Except.ok [])
    (hop : get_operation_ast ast params.operation_name = some operation_ast)
    (hkind : operation_ast.operation ≠ "query") :
    ∀ execute : Schema → AST → Option String → Vars VMap → Except Err (ExecutionResult Err Dat),
      execute_graphql_request parse validate get_operation_ast execute schema params true
        = Except.error
            { status := 405
            , message := "Can only perform a " ++ operation_ast.operation ++ " operation from a POST request."
            , headers := [("Allow", HeaderValue.list ["POST"])] } := by
  intro execute
  simp [execute_graphql_request, hq, hp, hv, hop, hkind]

/-- Witness for C7: a GET pipeline selecting a mutation is rejected with
405 and `Allow: [POST]`, on a concrete pipeline. -/
theorem c7_witness :
    execute_graphql_request parseW validateW goaMutW executeW () pOkW true
      = Except.error
          { status := 405
          , message := "Can only perform a mutation operation from a POST request."
          , headers := [("Allow", HeaderValue.list ["POST"])] } :=
  c7_get_mutation_rejected parseW validateW goaMutW () pOkW () { operation := "mutation" }
    (by decide) rfl rfl rfl (by decide) executeW

/-- C10: on a GET request, when `get_operation_ast` selects no operation,
the operation-kind check is skipped: no `HttpQueryError` is raised and
the item proceeds to the execution stage (`execute_and_catch`). -/
theorem c10_missing_operation_skips_check
    (parse : String → Except Err AST)
    (validate : Schema → AST → Except Err (List Err))
    (get_operation_ast : AST → Option String → Option OperationAst)
    (execute : Schema → AST → Option String → Vars VMap → Except Err (ExecutionResult Err Dat))
    (schema : Schema) (params : GraphQLParams VMap) (ast : AST)
    (hq : truthy_str params.query = true)
    (hp : parse (params.query.getD "") = Except.ok ast)
    (hv : validate schema ast = Except.ok [])
    (hop : get_operation_ast ast params.operation_name = none) :
    execute_graphql_request parse validate get_operation_ast execute schema params true
      = execute_and_catch execute schema ast params
    ∧ ∀ e, execute_graphql_request parse validate get_operation_ast execute schema params true
        ≠ Except.error e := by
  have h1 : execute_graphql_request parse validate get_operation_ast execute schema params true
      = execute_and_catch execute schema ast params := by
    simp [execute_graphql_request, hq, hp, hv, hop]
  refine ⟨h1, ?_⟩
  intro e
  rw [h1]
  unfold execute_and_catch
  cases hex : execute schema ast params.operation_name params.vars <;> simp [hex]

/-- Witness for C10: with a concrete pipeline whose `get_operation_ast`
finds nothing, the GET request proceeds to execution. -/
theorem c10_witness :
    execute_graphql_request parseW validateW goaW executeW () pOkW true
      = execute_and_catch executeW () () pOkW :=
  (c10_missing_operation_skips_check parseW validateW goaW executeW () pOkW ()
    (by decide) rfl rfl rfl).1

/-- C1: for a non-empty query, every language-level failure is converted
into an outcome with `errors=[e]` and `invalid=true`: a parse exception, a
validate exception, a non-empty validation-error list (which short-circuits
uniformly in `execute`, so `execute` is not called), and an execute
exception; and the only error `execute_graphql_request` can raise for a
non-empty query is the hard 405 transport error. -/
theorem c1_language_errors_recovered
    (parse : String → Except Err AST)
    (validate : Schema → AST → Except Err (List Err))
    (get_operation_ast : AST → Option String → Option OperationAst)
    (schema : Schema) (params : GraphQLParams VMap) (allow_only_query : Bool)
    (hq : truthy_str params.query = true) :
    (∀ (execute : Schema → AST → Option String → Vars VMap → Except Err (ExecutionResult Err Dat)) e,
      parse (params.query.getD "") = Except.error e →
      execute_graphql_request parse validate get_operation_ast execute schema params allow_only_query
        = Except.ok { data := none, errors := [e], invalid := true }) ∧
    (∀ (execute : Schema → AST → Option String → Vars VMap → Except Err (ExecutionResult Err Dat)) ast e,
      parse (params.query.getD "") = Except.ok ast →
      validate schema ast = Except.error e →
      execute_graphql_request parse validate get_operation_ast execute schema params allow_only_query
        = Except.ok { data := none, errors := [e], invalid := true }) ∧
    (∀ (execute : Schema → AST → Option String → Vars VMap → Except Err (ExecutionResult Err Dat)) ast verrs,
      parse (params.query.getD "") = Except.ok ast →
      validate schema ast = Except.ok verrs →
      verrs ≠ [] →
      execute_graphql_request parse validate get_operation_ast execute schema params allow_only_query
        = Except.ok { data := none, errors := verrs, invalid := true }) ∧
    (∀ (execute : Schema → AST → Option String → Vars VMap → Except Err (ExecutionResult Err Dat)) ast e,
      parse (params.query.getD "") = Except.ok ast →
      validate schema ast = Except.ok [] →
      (∀ op, get_operation_ast ast params.operation_name = some op → op.operation = "query") →
      execute schema ast params.operation_name params.vars = Except.error e →
      execute_graphql_request parse validate get_operation_ast execute schema params allow_only_query
        = Except.ok { data := none, errors := [e], invalid := true }) ∧
    (∀ (execute : Schema → AST → Option String → Vars VMap → Except Err (ExecutionResult Err Dat)) e2,
      execute_graphql_request parse validate get_operation_ast execute schema params allow_only_query
        = Except.error e2 →
      e2.status = 405) := by
  refine ⟨?_, ?_, ?_, ?_, ?_⟩
  · intro execute e hp
    simp [execute_graphql_request, hq, hp]
  · intro execute ast e hp hv
    simp [execute_graphql_request, hq, hp, hv]
  · intro execute ast verrs hp hv hne
    have hverrs : verrs.isEmpty = false := by
      cases verrs with
      | nil => exact absurd rfl hne
      | cons v vs => rfl
    simp [execute_graphql_request, hq, hp, hv, hverrs]
  · intro execute ast e hp hv hop hex
    have hend : execute_and_catch execute schema ast params
        = Except.ok { data := none, errors := [e], invalid := true } := by
      simp [execute_and_catch, hex]
    cases allow_only_query with
    | false => simp [execute_graphql_request, hq, hp, hv, hend]
    | true =>
      cases hgo : get_operation_ast ast params.operation_name with
      | none => simp [execute_graphql_request, hq, hp, hv, hgo, hend]
      | some op =>
        have hqop : op.operation = "query" := hop op hgo
        simp [execute_graphql_request, hq, hp, hv, hgo, hqop, hend]
  · intro execute e2 h
    unfold execute_graphql_request at h
    rw [hq] at h
    simp only [Bool.not_true, Bool.false_eq_true, if_false, ite_false] at h
    split at h
    · simp at h
    · split at h
      · simp at h
      · split at h
        · simp at h
        · split at h
          · split at h
            · split at h
              · rename_i herr
                cases h
                rfl
              · unfold execute_and_catch at h
                split at h <;> simp at h
            · unfold execute_and_catch at h
              split at h <;> simp at h
          · unfold execute_and_catch at h
            split at h <;> simp at h

/-- Witness for C1: a concrete parse failure is recovered into a soft
outcome. -/
theorem c1_witness :
    execute_graphql_request parseW validateW goaW executeW () pBadW false
      = Except.ok { data := none, errors := ["syntax error"], invalid := true } :=
  (c1_language_errors_recovered parseW validateW goaW () pBadW false (by decide)).1
    executeW "syntax error" rfl

/-- C3: on a non-empty outcome list, `encode_execution_results` returns
the maximum of the per-item status codes as aggregate status; a batch
yields the ordered array of per-item bodies; a single-item non-batch
request yields the sole item's bare body. -/
theorem c3_encode_execution_results_spec {α : Type}
    (format_error : Err → FErr) (encode : EncodedPayload FErr Dat → α)
    (results : List (Option (ExecutionResult Err Dat))) (hne : results ≠ []) :
    ∃ status_code : Nat,
      status_code ∈ results.map (fun er => (format_execution_result er format_error).status_code) ∧
      (∀ s ∈ results.map (fun er => (format_execution_result er format_error).status_code),
        s ≤ status_code) ∧
      encode_execution_results results format_error true encode
        = some
            ( encode (EncodedPayload.batch
                (results.map fun er => (format_execution_result er format_error).result))
            , status_code) ∧
      (∀ er, results = [er] →
        encode_execution_results results format_error false encode
          = some
              ( encode (EncodedPayload.single (format_execution_result er format_error).result)
              , status_code)) := by
  obtain ⟨r0, rs0, rfl⟩ := List.exists_cons_of_ne_nil hne
  refine ⟨(rs0.map fun er => format_execution_result er format_error).foldl
      (fun acc resp => Nat.max acc resp.status_code)
      (format_execution_result r0 format_error).status_code, ?_, ?_, ?_, ?_⟩
  · have key : (rs0.map fun er => format_execution_result er format_error).foldl
        (fun acc resp => Nat.max acc resp.status_code)
        (format_execution_result r0 format_error).status_code
        = (rs0.map fun er => (format_execution_result er format_error).status_code).foldl
            Nat.max (format_execution_result r0 format_error).status_code := by
      simp [List.foldl_map]
    rw [key, List.map_cons]
    rcases foldl_max_mem (rs0.map fun er => (format_execution_result er format_error).status_code)
        (format_execution_result r0 format_error).status_code with h | h
    · rw [h]; exact List.mem_cons_self _ _
    · exact List.mem_cons_of_mem _ h
  · have key : (rs0.map fun er => format_execution_result er format_error).foldl
        (fun acc resp => Nat.max acc resp.status_code)
        (format_execution_result r0 format_error).status_code
        = (rs0.map fun er => (format_execution_result er format_error).status_code).foldl
            Nat.max (format_execution_result r0 format_error).status_code := by
      simp [List.foldl_map]
    rw [key]
    intro s hs
    rw [List.map_cons] at hs
    rcases List.mem_cons.mp hs with h | h
    · rw [h]; exact le_foldl_max _ _
    · exact mem_le_foldl_max _ _ s h
  · simp [encode_execution_results, List.map_cons, List.map_map, Function.comp_def]
  · intro er her
    injection her with h1 h2
    subst h1
    subst h2
    rfl

/-- Witness for C3: conclusion instantiated on a concrete two-item batch
(statuses 200 and 400, aggregate 400). -/
theorem c3_witness :
    ∃ status_code : Nat,
      status_code ∈ resultsW.map (fun er => (format_execution_result er fmtW).status_code) ∧
      (∀ s ∈ resultsW.map (fun er => (format_execution_result er fmtW).status_code),
        s ≤ status_code) ∧
      encode_execution_results resultsW fmtW true encW
        = some
            ( encW (EncodedPayload.batch
                (resultsW.map fun er => (format_execution_result er fmtW).result))
            , status_code) ∧
      (∀ er, resultsW = [er] →
        encode_execution_results resultsW fmtW false encW
          = some
              ( encW (EncodedPayload.single (format_execution_result er fmtW).result)
              , status_code)) :=
  c3_encode_execution_results_spec fmtW encW resultsW (by simp [resultsW])

/-- C4: for a validated batch whose parameter extraction succeeded, the
dispatcher returns one slot per parameter set in input order; under the
suppress policy (`catch=True`) a pipeline `HttpQueryError` becomes a
`none` slot for that item and every other slot is that item's own
pipeline result; under the propagate policy (`catch=False`) a pipeline
`HttpQueryError` makes the whole `run_http_query` fail. -/
theorem c4_dispatcher_spec
    (parse : String → Except Err AST)
    (validate : Schema → AST → Except Err (List Err))
    (get_operation_ast : AST → Option String → Option OperationAst)
    (execute : Schema → AST → Option String → Vars VMap → Except Err (ExecutionResult Err Dat))
    (map_truthy : VMap → Bool) (decode_json : String → Option VMap)
    (schema : Schema) (request_method : String) (ds : List (RawItem VMap))
    (query_data : Option (RawItem VMap)) (all_params : List (GraphQLParams VMap))
    (hm : (request_method == "get" || request_method == "post") = true)
    (hne : ds ≠ [])
    (hext : map_except (fun d => get_graphql_params map_truthy decode_json d emptyRawItem) ds
      = Except.ok all_params) :
    all_params.length = ds.length ∧
    run_http_query parse validate get_operation_ast execute map_truthy decode_json schema
        request_method (RequestData.list ds) query_data true true
      = Except.ok
          ( all_params.map fun params =>
              match execute_graphql_request parse validate get_operation_ast execute schema params
                  (request_method == "get") with
              | Except.ok r => some r
              | Except.error _ => none
          , all_params) ∧
    (∀ params, params ∈ all_params →
      (∃ e, execute_graphql_request parse validate get_operation_ast execute schema params
          (request_method == "get") = Except.error e) →
      ∃ e2, run_http_query parse validate get_operation_ast execute map_truthy decode_json schema
          request_method (RequestData.list ds) query_data true false = Except.error e2) := by
  have hdse : ds.isEmpty = false := by
    cases ds with
    | nil => exact absurd rfl hne
    | cons d ds => rfl
  refine ⟨map_except_ok_length _ ds all_params hext, ?_, ?_⟩
  · have hresp : map_except
        (fun params => get_response parse validate get_operation_ast execute schema params
          CatchPolicy.suppress (request_method == "get"))
        all_params
        = Except.ok (all_params.map fun params =>
            match execute_graphql_request parse validate get_operation_ast execute schema params
                (request_method == "get") with
            | Except.ok r => some r
            | Except.error _ => none) := by
      apply map_except_ok_of_forall
      intro p _
      unfold get_response
      cases hegr : execute_graphql_request parse validate get_operation_ast execute schema p
          (request_method == "get") <;> simp [hegr]
    simp [run_http_query, hm, hdse, run_items, hext, hresp]
  · intro params hmem ⟨e, hegr⟩
    have hfail : get_response parse validate get_operation_ast execute schema params
        CatchPolicy.propagate (request_method == "get") = Except.error e := by
      unfold get_response
      rw [hegr]
    obtain ⟨e2, hmap⟩ := map_except_error_of_mem
      (fun params => get_response parse validate get_operation_ast execute schema params
        CatchPolicy.propagate (request_method == "get"))
      all_params params hmem e hfail
    refine ⟨e2, ?_⟩
    simp [run_http_query, hm, hdse, run_items, hext, hmap]

/-- Witness for C4: a two-item batch where the first item has no query
(pipeline raises 400) and the second executes; under suppress the first
slot is `null` and the second carries its result. -/
theorem c4_witness :
    run_http_query parseW validateW goaW executeW mapTruthyW decodeW () "post"
        (RequestData.list [itemNoQueryW, itemOkW]) none true true
      = Except.ok ([none, some resOkW], [pNoneW, pOkW]) :=
  (c4_dispatcher_spec parseW validateW goaW executeW mapTruthyW decodeW () "post"
    [itemNoQueryW, itemOkW] none [pNoneW, pOkW] (by decide) (by simp) rfl).2.1

/-- A successful `run_items` returns exactly the parameters extracted
from its entries against its fallback. -/
theorem run_items_params_ok
    (parse : String → Except Err AST)
    (validate : Schema → AST → Except Err (List Err))
    (get_operation_ast : AST → Option String → Option OperationAst)
    (execute : Schema → AST → Option String → Vars VMap → Except Err (ExecutionResult Err Dat))
    (map_truthy : VMap → Bool) (decode_json : String → Option VMap)
    (schema : Schema) (entries : List (RawItem VMap)) (extra_data : RawItem VMap)
    (cp : CatchPolicy) (aoq : Bool)
    (rs : List (Option (ExecutionResult Err Dat))) (ps : List (GraphQLParams VMap))
    (h : run_items parse validate get_operation_ast execute map_truthy decode_json schema
      entries extra_data cp aoq = Except.ok (rs, ps)) :
    map_except (fun d => get_graphql_params map_truthy decode_json d extra_data) entries
      = Except.ok ps := by
  unfold run_items at h
  cases hype : map_except (fun d => get_graphql_params map_truthy decode_json d extra_data) entries with
  | error e =>
    simp only [hype] at h
    simp at h
  | ok all_params =>
    simp only [hype] at h
    split at h
    · simp at h
    · simp only [Except.ok.injEq] at h
      injection h with h1 h2
      rw [h2]

/-- C9: the query-string fallback is applied per field only to a single
(object) request: a batch run is independent of `query_data`, its items
are extracted against the empty fallback, while a single request's item
is extracted against `query_data`. -/
theorem c9_batch_ignores_query_string_defaults
    (parse : String → Except Err AST)
    (validate : Schema → AST → Except Err (List Err))
    (get_operation_ast : AST → Option String → Option OperationAst)
    (execute : Schema → AST → Option String → Vars VMap → Except Err (ExecutionResult Err Dat))
    (map_truthy : VMap → Bool) (decode_json : String → Option VMap)
    (schema : Schema) (request_method : String) (batch_enabled : Bool) (catch_flag : Bool) :
    (∀ (ds : List (RawItem VMap)) (qd1 qd2 : Option (RawItem VMap)),
      run_http_query parse validate get_operation_ast execute map_truthy decode_json schema
          request_method (RequestData.list ds) qd1 batch_enabled catch_flag
        = run_http_query parse validate get_operation_ast execute map_truthy decode_json schema
            request_method (RequestData.list ds) qd2 batch_enabled catch_flag) ∧
    (∀ (ds : List (RawItem VMap)) (qd : Option (RawItem VMap)) rs ps,
      run_http_query parse validate get_operation_ast execute map_truthy decode_json schema
          request_method (RequestData.list ds) qd batch_enabled catch_flag = Except.ok (rs, ps) →
      map_except (fun d => get_graphql_params map_truthy decode_json d emptyRawItem) ds
        = Except.ok ps) ∧
    (∀ (d : RawItem VMap) (qd : Option (RawItem VMap)) rs ps,
      run_http_query parse validate get_operation_ast execute map_truthy decode_json schema
          request_method (RequestData.dict d) qd batch_enabled catch_flag = Except.ok (rs, ps) →
      map_except (fun dd => get_graphql_params map_truthy decode_json dd (qd.getD emptyRawItem)) [d]
        = Except.ok ps) := by
  refine ⟨?_, ?_, ?_⟩
  · intro ds qd1 qd2
    rfl
  · intro ds qd rs ps h
    unfold run_http_query at h
    split at h
    · simp at h
    · simp only [] at h
      split at h
      · simp at h
      · split at h
        · simp at h
        · exact run_items_params_ok parse validate get_operation_ast execute map_truthy
            decode_json schema ds emptyRawItem _ _ rs ps h
  · intro d qd rs ps h
    unfold run_http_query at h
    split at h
    · simp at h
    · simp only [] at h
      exact run_items_params_ok parse validate get_operation_ast execute map_truthy
        decode_json schema [d] (qd.getD emptyRawItem) _ _ rs ps h

/-- Witness for C9: a one-item batch with a transport-level default query
available still extracts its item against the empty fallback (the item's
missing query stays missing). -/
theorem c9_witness :
    map_except (fun d => get_graphql_params mapTruthyW decodeW d emptyRawItem) [itemNoQueryW]
      = Except.ok [pNoneW] :=
  (c9_batch_ignores_query_string_defaults parseW validateW goaW executeW mapTruthyW decodeW ()
    "post" true true).2.1 [itemNoQueryW] (some qdDefaultW) [none] [pNoneW] rfl

end GraphQLServer
